import Mathlib

/-
Verification of scripts/extract_candidates.py: a shallow embedding of the
spreadsheet-extraction engine.  XML documents are modelled as already-parsed
Lean structures (one structure per element shape the script inspects), the
zip package is modelled by oracle functions from internal paths to optional
parsed documents (a `none` result models a member that is absent from the
archive), and Python runtime behaviour that the script relies on (dict
insertion semantics, list indexing with negative indices, string strip and
falsiness of the empty string, `posixpath` joining and normalisation) is
modelled by dedicated functions below.  A raised Python exception is
modelled as an `Except.error` result.
-/

namespace ExtractCandidates

/-- Model of the Python whitespace class used by `str.strip` (ASCII part). -/
def isPySpace (c : Char) : Bool :=
  c = ' ' ∨ c = '\t' ∨ c = '\n' ∨ c = '\r' ∨ c = '\x0b' ∨ c = '\x0c'

/-- Model of Python `str.strip()` with no arguments: drop leading and
trailing whitespace. -/
def pyStrip (s : String) : String :=
  String.mk (((s.data.dropWhile isPySpace).reverse.dropWhile isPySpace).reverse)

/-- Value of a nonempty all-digit character list, `none` otherwise. -/
def digitsVal (cs : List Char) : Option Nat :=
  if cs = [] then none
  else if cs.all Char.isDigit then
    some (cs.foldl (fun acc c => acc * 10 + (c.toNat - 48)) 0)
  else none

/-- Model of Python `int(string)` on optionally signed ASCII decimal
strings: surrounding whitespace is stripped, then an optional sign and a
nonempty digit run are accepted; `none` models a raised `ValueError`. -/
def pyInt (s : String) : Option Int :=
  match (pyStrip s).data with
  | '-' :: rest => (digitsVal rest).map (fun n => -(n : Int))
  | '+' :: rest => (digitsVal rest).map (fun n => (n : Int))
  | cs => (digitsVal cs).map (fun n => (n : Int))

/-- Model of Python list subscription `l[i]`: non-negative indices index
from the front, negative indices index from the back, and `none` models a
raised `IndexError`. -/
def pyIndex (l : List String) (i : Int) : Option String :=
  if 0 ≤ i then l.get? i.toNat
  else if 0 ≤ i + l.length then l.get? (i + l.length).toNat
  else none

/-- Model of Python dict lookup `d.get(k)` over an association list whose
keys are unique (as maintained by `dictInsert`). -/
def dictGet {κ α : Type} [DecidableEq κ] (m : List (κ × α)) (k : κ) : Option α :=
  match m with
  | [] => none
  | (k2, v) :: rest => if k2 = k then some v else dictGet rest k

/-- Model of Python dict assignment `d[k] = v`: replace the value in place
if the key is present, else append the new pair. -/
def dictInsert {κ α : Type} [DecidableEq κ] (m : List (κ × α)) (k : κ) (v : α) : List (κ × α) :=
  match m with
  | [] => [(k, v)]
  | (k2, v2) :: rest => if k2 = k then (k, v) :: rest else (k2, v2) :: dictInsert rest k v

/-- Model of a Python dict comprehension over a list of key-value pairs:
later pairs overwrite earlier ones with the same key. -/
def pyDict {κ α : Type} [DecidableEq κ] (l : List (κ × α)) : List (κ × α) :=
  l.foldl (fun m kv => dictInsert m kv.1 kv.2) []

/-- Boolean test that the second character list starts with the first. -/
def listLeads : List Char → List Char → Bool
  | [], _ => true
  | _ :: _, [] => false
  | p :: ps, c :: cs => p == c && listLeads ps cs

/-- Boolean test that the second character list ends with the first. -/
def listTrails (post l : List Char) : Bool :=
  listLeads post.reverse l.reverse

/-- Split a character list on a separator character, keeping empty parts,
as Python `string.split(sep)` does. -/
def splitChars (sep : Char) : List Char → List (List Char)
  | [] => [[]]
  | c :: rest =>
    let r := splitChars sep rest
    if c = sep then [] :: r
    else
      match r with
      | [] => [[c]]
      | g :: gs => (c :: g) :: gs

/-- Model of `posixpath.join` on two components. -/
def pjoin (a b : String) : String :=
  if listLeads ['/'] b.data then b
  else if a = "" then a ++ b
  else if listTrails ['/'] a.data then a ++ b
  else a ++ "/" ++ b

/-- Component processing of `posixpath.normpath` on a nonempty path:
collapse repeated separators and resolve `.` and `..` components
lexically, keeping the leading-slash count the POSIX way. -/
def normpathCore (path : String) : String :=
  let slashes : Nat :=
    if listLeads ['/', '/', '/'] path.data then 1
    else if listLeads ['/', '/'] path.data then 2
    else if listLeads ['/'] path.data then 1
    else 0
  let comps := (splitChars '/' path.data).map String.mk
  let newComps := comps.foldl (fun acc comp =>
    if comp = "" ∨ comp = "." then acc
    else if comp ≠ ".." ∨ (slashes = 0 ∧ acc = []) ∨ acc.getLast? = some ".." then
      acc ++ [comp]
    else if acc ≠ [] then acc.dropLast
    else acc) []
  String.mk (List.replicate slashes '/') ++ String.intercalate "/" newComps

/-- Model of `posixpath.normpath`: an empty input or an empty processed
result yields a single dot. -/
def normpath (path : String) : String :=
  if path = "" then "."
  else
    let res := normpathCore path
    if res = "" then "." else res

/-- Model of `posixpath.dirname`: the text up to the final separator, with
trailing separators stripped unless the head is all separators. -/
def dirname (p : String) : String :=
  let cs := p.data
  let tailLen := (cs.reverse.takeWhile (fun c => ¬ (c = '/'))).length
  let head := cs.take (cs.length - tailLen)
  if head = [] then ""
  else if head.all (fun c => c = '/') then String.mk head
  else String.mk ((head.reverse.dropWhile (fun c => c = '/')).reverse)

/-- Model of `pathlib.PurePosixPath(p).name`: the final path component,
with empty and single-dot components discarded. -/
def pathName (p : String) : String :=
  let comps := ((splitChars '/' p.data).map String.mk).filter (fun c => ¬ (c = "" ∨ c = "."))
  comps.getLast?.getD ""

/-- Characters kept verbatim by `slugify` (lowercase ASCII alphanumerics). -/
def isSlugChar (c : Char) : Bool :=
  ('a' ≤ c ∧ c ≤ 'z') ∨ ('0' ≤ c ∧ c ≤ '9')

/-- Collapse runs of dashes to a single dash. -/
def collapseDashes : List Char → List Char
  | [] => []
  | [c] => [c]
  | c :: d :: rest =>
    if c = '-' ∧ d = '-' then collapseDashes (d :: rest)
    else c :: collapseDashes (d :: rest)

/-- Model of `slugify`: lowercase the text, replace every maximal run of
non-alphanumeric characters with a single dash, and strip dashes from both
ends (the two regex substitutions of the source compose to this). -/
def slugify (text : String) : String :=
  let mapped := text.data.map (fun c =>
    let lc := c.toLower
    if isSlugChar lc then lc else '-')
  let collapsed := collapseDashes mapped
  String.mk (((collapsed.dropWhile (fun c => c = '-')).reverse.dropWhile (fun c => c = '-')).reverse)

/-- One `Relationship` element of a `.rels` document: its `Id`, `Type`
and `Target` attributes. -/
structure Rel where
  relId : String
  relType : String
  target : String
deriving DecidableEq

/-- One `sheet` element of `xl/workbook.xml`: its optional `name`
attribute and optional relationship-id attribute. -/
structure SheetElem where
  name : Option String
  rid : Option String
deriving DecidableEq

/-- One `c` (cell) element of a sheet document: the optional coordinate
attribute `r`, the optional type attribute `t`, and the optional `v` child
element carrying optional text. -/
structure CellElem where
  coord : Option String
  ctype : Option String
  v : Option (Option String)
deriving DecidableEq

/-- One `row` element of a sheet document: the optional index attribute
`r` and the list of cell children in document order. -/
structure RowElem where
  rAttr : Option String
  cells : List CellElem
deriving DecidableEq

/-- The `xdr:from` child of an anchor: its optional `xdr:row` child
element carrying optional text. -/
structure FromCell where
  rowElem : Option (Option String)
deriving DecidableEq

/-- An `a:blip` element: its optional embed-reference attribute. -/
structure Blip where
  embed : Option String
deriving DecidableEq

/-- An `xdr:pic` element: its optional nested `a:blip` element. -/
structure PicElem where
  blip : Option Blip
deriving DecidableEq

/-- One top-level child of a drawing document, viewed through the two
lookups the script performs on it: an optional `xdr:from` child and an
optional `xdr:pic` child. -/
structure AnchorElem where
  fromCell : Option FromCell
  pic : Option PicElem
deriving DecidableEq

/-- One extracted candidate record. -/
structure Candidate where
  name : String
  statement : String
  headshot : Option String
deriving DecidableEq

/-- One extracted position record. -/
structure Position where
  title : String
  slug : String
  sheet : String
  candidates : List Candidate
deriving DecidableEq

/-- The display-name override table from the source. -/
def POSITION_NAME_OVERRIDES : List (String × String) :=
  [("Vice President of Internal Affa", "Vice President of Internal Affairs"),
   ("International Student Affairs O", "International Student Affairs Officer")]

/-- The column letters of a cell coordinate: its alphabetic characters
(ASCII model of `str.isalpha`). -/
def colLetters (coord : String) : String :=
  String.mk (coord.data.filter Char.isAlpha)

/-- Model of `statement.replace("\t", " ")`. -/
def tabToSpace (s : String) : String :=
  String.mk (s.data.map (fun c => if c = '\t' then ' ' else c))

/-- Body of `load_sheet_targets`: iterate the declared sheets, skipping a
sheet whose relationship id is missing, unresolvable, or resolves to a
falsy (empty) target. -/
def sheetsLoop (rel_map : List (String × String)) : List SheetElem → List (String × String)
  | [] => []
  | sh :: rest =>
    let target : Option String :=
      match sh.rid with
      | none => none
      | some rid => dictGet rel_map rid
    match target with
    | none => sheetsLoop rel_map rest
    | some t =>
      if t = "" then sheetsLoop rel_map rest
      else (sh.name.getD t, normpath (pjoin "xl" t)) :: sheetsLoop rel_map rest

/-- Model of `load_sheet_targets`: the workbook sheet list and the
workbook relationship document are its two reads from the package. -/
def load_sheet_targets (sheets : List SheetElem) (workbookRels : List Rel) : List (String × String) :=
  let rel_map := pyDict (workbookRels.map (fun r => (r.relId, r.target)))
  sheetsLoop rel_map sheets

/-- Processing of one cell element inside `read_sheet_rows`: cells lacking
a value element or a column letter are skipped; a shared-string-typed cell
has its value parsed as an index and looked up in the table, where a parse
failure models `ValueError` and a failed lookup models `IndexError`. -/
def readCellStep (shared_strings : List String) (acc : List (String × String)) (c : CellElem) :
    Except String (List (String × String)) :=
  let col := colLetters (c.coord.getD "")
  match c.v with
  | none => .ok acc
  | some vtext =>
    if col = "" then .ok acc
    else
      let raw := vtext.getD ""
      if c.ctype = some "s" then
        match pyInt raw with
        | none => .error "ValueError"
        | some i =>
          match pyIndex shared_strings i with
          | none => .error "IndexError"
          | some sval => .ok (dictInsert acc col sval)
      else .ok (dictInsert acc col raw)

/-- Left-to-right processing of the cells of one row. -/
def readCells (shared_strings : List String) (acc : List (String × String)) :
    List CellElem → Except String (List (String × String))
  | [] => .ok acc
  | c :: cs =>
    match readCellStep shared_strings acc c with
    | .error e => .error e
    | .ok acc2 => readCells shared_strings acc2 cs

/-- Processing of one row element: parse its index attribute (defaulting
to the string `0` when absent) and build its column-to-value dict. -/
def readRow (shared_strings : List String) (row : RowElem) :
    Except String (Int × List (String × String)) :=
  match pyInt (row.rAttr.getD "0") with
  | none => .error "ValueError"
  | some row_idx =>
    match readCells shared_strings [] row.cells with
    | .error e => .error e
    | .ok cells => .ok (row_idx, cells)

/-- Model of `read_sheet_rows`: the parsed row elements of the sheet
document, in document order, each turned into an index and cell dict. -/
def read_sheet_rows (doc : List RowElem) (shared_strings : List String) :
    Except String (List (Int × List (String × String))) :=
  match doc with
  | [] => .ok []
  | row :: rest =>
    match readRow shared_strings row with
    | .error e => .error e
    | .ok pr =>
      match read_sheet_rows rest shared_strings with
      | .error e => .error e
      | .ok prs => .ok (pr :: prs)

/-- The conventional sidecar relationship-file path of a document: a
`_rels` sibling directory holding `<document name>.rels`. -/
def relsPathFor (doc_path : String) : String :=
  pjoin (pjoin (dirname doc_path) "_rels") (pathName doc_path ++ ".rels")

/-- Scan a relationship document for the first relationship whose type
ends in `/drawing`, returning its normalized target. -/
def firstDrawing (sheet_path : String) : List Rel → Option String
  | [] => none
  | r :: rest =>
    if listTrails "/drawing".data r.relType.data then
      some (normpath (pjoin (dirname sheet_path) r.target))
    else firstDrawing sheet_path rest

/-- Model of `find_drawing_path`: `relsAt` models the archive lookup of a
parsed relationship document, with `none` for a member that is absent from
the namelist.  Absence of the sheet relationship file yields no drawing. -/
def find_drawing_path (relsAt : String → Option (List Rel)) (sheet_path : String) :
    Option String :=
  match relsAt (relsPathFor sheet_path) with
  | none => none
  | some rels => firstDrawing sheet_path rels

/-- The id-to-normalized-image-path map built from a drawing relationship
document, targets resolved against the drawing directory. -/
def drawingRelMap (drawing_path : String) (rels : List Rel) : List (String × String) :=
  pyDict (rels.map (fun r => (r.relId, normpath (pjoin (dirname drawing_path) r.target))))

/-- Outcome of one anchor inside `map_anchor_rows_to_images`: skipped
(`none`), fatal (`error`, for a missing or unparseable `xdr:row`), or an
entry mapping the one-based row `row_idx + 1` to the resolved image path. -/
def anchorEval (rel_map : List (String × String)) (a : AnchorElem) :
    Except String (Option (Int × String)) :=
  match a.fromCell, a.pic with
  | none, _ => .ok none
  | some _, none => .ok none
  | some fc, some p =>
    match fc.rowElem with
    | none => .error "AttributeError"
    | some rowText =>
      match rowText with
      | none => .error "TypeError"
      | some s =>
        match pyInt s with
        | none => .error "ValueError"
        | some row_idx =>
          match p.blip with
          | none => .ok none
          | some b =>
            let image_path : Option String :=
              match b.embed with
              | none => none
              | some eid => dictGet rel_map eid
            match image_path with
            | none => .ok none
            | some ip =>
              if ip = "" then .ok none
              else .ok (some (row_idx + 1, ip))

/-- Left-to-right accumulation of the anchors dict over the children of
the drawing document. -/
def anchorsLoop (rel_map : List (String × String)) (acc : List (Int × String)) :
    List AnchorElem → Except String (List (Int × String))
  | [] => .ok acc
  | a :: rest =>
    match anchorEval rel_map a with
    | .error e => .error e
    | .ok none => anchorsLoop rel_map acc rest
    | .ok (some (k, v)) => anchorsLoop rel_map (dictInsert acc k v) rest

/-- Model of `map_anchor_rows_to_images`: the drawing relationship file is
read with no namelist check first, so `none` from `relsAt` (an absent
member) models a raised `KeyError`; likewise for the drawing document. -/
def map_anchor_rows_to_images (relsAt : String → Option (List Rel))
    (drawingAt : String → Option (List AnchorElem)) (drawing_path : String) :
    Except String (List (Int × String)) :=
  match relsAt (relsPathFor drawing_path) with
  | none => .error "KeyError"
  | some relDoc =>
    match drawingAt drawing_path with
    | none => .error "KeyError"
    | some anchors => anchorsLoop (drawingRelMap drawing_path relDoc) [] anchors

/-- The candidate loop of `main` over the data rows (the rows after the
header): a row whose stripped name-column value is empty is dropped;
otherwise a candidate is built, its statement the tab-flattened stripped
statement-column value, its headshot the normalized anchor-map image for
the row index if one is present.  The filesystem copy of the image and the
slugified output filename are I/O concerns outside the extraction core;
the model records the normalized package-internal image path, which is
what determines the written file. -/
def build_candidates (row_image_map : List (Int × String)) :
    List (Int × List (String × String)) → List Candidate
  | [] => []
  | (row_idx, cells) :: rest =>
    let name := pyStrip ((dictGet cells "A").getD "")
    if name = "" then build_candidates row_image_map rest
    else
      let statement := pyStrip (tabToSpace ((dictGet cells "C").getD ""))
      let headshot : Option String :=
        match dictGet row_image_map row_idx with
        | none => none
        | some rel => if rel = "" then none else some (normpath rel)
      { name := name, statement := statement, headshot := headshot } :: build_candidates row_image_map rest

/-- The anchor map used for a sheet: built from the drawing when one was
located, the empty dict otherwise. -/
def sheet_image_map (relsAt : String → Option (List Rel))
    (drawingAt : String → Option (List AnchorElem)) :
    Option String → Except String (List (Int × String))
  | some dp => map_anchor_rows_to_images relsAt drawingAt dp
  | none => .ok []

/-- The per-sheet body of the loop in `main`: resolve the display name
through the override table, locate the drawing and build the anchor map,
read the rows (`sheetAt` models the archive lookup of the parsed sheet
document), and emit a position unless the row list is empty.  The first
row is consumed as the header. -/
def process_sheet (overrides : List (String × String)) (shared_strings : List String)
    (relsAt : String → Option (List Rel)) (sheetAt : String → Option (List RowElem))
    (drawingAt : String → Option (List AnchorElem))
    (sheet_name sheet_path : String) : Except String (Option Position) :=
  let display_name := (dictGet overrides sheet_name).getD sheet_name
  match sheet_image_map relsAt drawingAt (find_drawing_path relsAt sheet_path) with
  | .error e => .error e
  | .ok row_image_map =>
    match sheetAt sheet_path with
    | none => .error "KeyError"
    | some doc =>
      match read_sheet_rows doc shared_strings with
      | .error e => .error e
      | .ok rows =>
        match rows with
        | [] => .ok none
        | _ :: dataRows =>
          .ok (some { title := display_name, slug := slugify display_name,
                      sheet := sheet_name,
                      candidates := build_candidates row_image_map dataRows })

/-- The loop of `main` over the sheet targets, accumulating positions; any
per-sheet failure aborts the whole run. -/
def main_loop (overrides : List (String × String)) (shared_strings : List String)
    (relsAt : String → Option (List Rel)) (sheetAt : String → Option (List RowElem))
    (drawingAt : String → Option (List AnchorElem)) :
    List (String × String) → Except String (List Position)
  | [] => .ok []
  | (n, p) :: rest =>
    match process_sheet overrides shared_strings relsAt sheetAt drawingAt n p with
    | .error e => .error e
    | .ok op =>
      match main_loop overrides shared_strings relsAt sheetAt drawingAt rest with
      | .error e => .error e
      | .ok ps =>
        match op with
        | none => .ok ps
        | some pos => .ok (pos :: ps)

/-- Looking up the key just inserted returns the inserted value. -/
theorem dictGet_dictInsert_self {κ α : Type} [DecidableEq κ] (m : List (κ × α)) (k : κ) (v : α) :
    dictGet (dictInsert m k v) k = some v := by
  induction m with
  | nil => simp [dictInsert, dictGet]
  | cons kv rest ih =>
    obtain ⟨k2, v2⟩ := kv
    by_cases h : k2 = k
    · subst h
      simp [dictInsert, dictGet]
    · simp [dictInsert, dictGet, h, ih]

/-- Inserting under one key leaves lookups of other keys unchanged. -/
theorem dictGet_dictInsert_ne {κ α : Type} [DecidableEq κ] (m : List (κ × α)) (k k2 : κ) (v : α)
    (h : ¬ k2 = k) : dictGet (dictInsert m k2 v) k = dictGet m k := by
  induction m with
  | nil => simp [dictInsert, dictGet, h]
  | cons kv rest ih =>
    obtain ⟨k3, v3⟩ := kv
    by_cases h3 : k3 = k2
    · subst h3
      simp [dictInsert, dictGet, h]
    · simp only [dictInsert, if_neg h3]
      by_cases h4 : k3 = k
      · simp [dictGet, h4]
      · simp [dictGet, h4, ih]

/-- Every pair of an insertion result is the inserted pair or an original
pair. -/
theorem mem_dictInsert {κ α : Type} [DecidableEq κ] (m : List (κ × α)) (k : κ) (v : α)
    (kv : κ × α) (h : kv ∈ dictInsert m k v) : kv = (k, v) ∨ kv ∈ m := by
  induction m with
  | nil =>
    simp [dictInsert] at h
    exact Or.inl h
  | cons kv2 rest ih =>
    obtain ⟨k2, v2⟩ := kv2
    by_cases hk : k2 = k
    · subst hk
      simp only [dictInsert, if_pos rfl] at h
      rcases List.mem_cons.mp h with h | h
      · exact Or.inl h
      · exact Or.inr (List.mem_cons_of_mem _ h)
    · simp only [dictInsert, if_neg hk] at h
      rcases List.mem_cons.mp h with h | h
      · exact Or.inr (h ▸ List.mem_cons_self _ _)
      · rcases ih h with h2 | h2
        · exact Or.inl h2
        · exact Or.inr (List.mem_cons_of_mem _ h2)

/-- Every pair of a fold of insertions comes from the accumulator or the
folded list. -/
theorem mem_foldl_dictInsert {κ α : Type} [DecidableEq κ] (l : List (κ × α)) :
    ∀ (acc : List (κ × α)) (kv : κ × α),
      kv ∈ l.foldl (fun m p => dictInsert m p.1 p.2) acc → kv ∈ acc ∨ kv ∈ l := by
  induction l with
  | nil =>
    intro acc kv h
    exact Or.inl h
  | cons p rest ih =>
    intro acc kv h
    rcases ih (dictInsert acc p.1 p.2) kv h with h2 | h2
    · rcases mem_dictInsert _ _ _ _ h2 with h3 | h3
      · right
        rw [h3, Prod.mk.eta]
        exact List.mem_cons_self _ _
      · exact Or.inl h3
    · exact Or.inr (List.mem_cons_of_mem _ h2)

/-- Every pair of a Python dict built from a pair list is one of the
pairs. -/
theorem mem_pyDict {κ α : Type} [DecidableEq κ] (l : List (κ × α)) (kv : κ × α)
    (h : kv ∈ pyDict l) : kv ∈ l := by
  rcases mem_foldl_dictInsert l [] kv h with h2 | h2
  · cases h2
  · exact h2

/-- A successful dict lookup yields a pair of the dict. -/
theorem dictGet_mem {κ α : Type} [DecidableEq κ] (m : List (κ × α)) (k : κ) (v : α)
    (h : dictGet m k = some v) : (k, v) ∈ m := by
  induction m with
  | nil => simp [dictGet] at h
  | cons kv rest ih =>
    obtain ⟨k2, v2⟩ := kv
    by_cases hk : k2 = k
    · subst hk
      simp [dictGet] at h
      subst h
      exact List.mem_cons_self _ _
    · simp only [dictGet, if_neg hk] at h
      exact List.mem_cons_of_mem _ (ih h)

/-- Path normalisation never yields the empty string. -/
theorem normpath_ne_empty (p : String) : ¬ normpath p = "" := by
  unfold normpath
  by_cases h : p = ""
  · rw [if_pos h]
    decide
  · rw [if_neg h]
    by_cases h2 : normpathCore p = ""
    · rw [if_pos h2]
      decide
    · rw [if_neg h2]
      exact h2

/-- Flattening tabs is the identity on tab-free text. -/
theorem tabToSpace_eq_self {s : String} (h : ∀ c ∈ s.data, ¬ c = '\t') : tabToSpace s = s := by
  obtain ⟨cs⟩ := s
  unfold tabToSpace
  have h2 : ∀ (l : List Char), (∀ c ∈ l, ¬ c = '\t') →
      l.map (fun c => if c = '\t' then ' ' else c) = l := by
    intro l
    induction l with
    | nil => intro _; rfl
    | cons c rest ih =>
      intro hl
      have hc := hl c (List.mem_cons_self _ _)
      rw [List.map_cons, if_neg hc, ih (fun d hd => hl d (List.mem_cons_of_mem _ hd))]
  exact congrArg String.mk (h2 cs h)

/-- The anchors loop splits over list concatenation. -/
theorem anchorsLoop_append (rm : List (String × String)) (l1 l2 : List AnchorElem) :
    ∀ (acc : List (Int × String)),
      anchorsLoop rm acc (l1 ++ l2) =
        match anchorsLoop rm acc l1 with
        | .error e => .error e
        | .ok acc2 => anchorsLoop rm acc2 l2 := by
  induction l1 with
  | nil => intro acc; rfl
  | cons a rest ih =>
    intro acc
    simp only [List.cons_append, anchorsLoop]
    cases anchorEval rm a with
    | error e => rfl
    | ok o =>
      cases o with
      | none => exact ih acc
      | some kv =>
        obtain ⟨k, v⟩ := kv
        exact ih (dictInsert acc k v)

/-- Anchors that never target a key leave its lookup unchanged across the
loop. -/
theorem anchorsLoop_get_stable (rm : List (String × String)) (k : Int) :
    ∀ (l : List AnchorElem) (acc m : List (Int × String)),
      anchorsLoop rm acc l = .ok m →
      (∀ b ∈ l, ∀ v, ¬ anchorEval rm b = .ok (some (k, v))) →
      dictGet m k = dictGet acc k := by
  intro l
  induction l with
  | nil =>
    intro acc m h _
    simp only [anchorsLoop, Except.ok.injEq] at h
    rw [h]
  | cons b rest ih =>
    intro acc m h hb
    simp only [anchorsLoop] at h
    cases hae : anchorEval rm b with
    | error e =>
      rw [hae] at h
      cases h
    | ok o =>
      rw [hae] at h
      cases o with
      | none => exact ih acc m h (fun b2 hb2 => hb b2 (List.mem_cons_of_mem _ hb2))
      | some kv =>
        obtain ⟨k2, v2⟩ := kv
        have hk2 : ¬ k2 = k := by
          intro hk
          subst hk
          exact hb b (List.mem_cons_self _ _) v2 hae
        rw [ih _ m h (fun b2 hb2 => hb b2 (List.mem_cons_of_mem _ hb2))]
        exact dictGet_dictInsert_ne acc k k2 v2 hk2

/-- A key property satisfied by the accumulator and by every entry an
anchor can contribute holds of every entry of the finished anchors dict. -/
theorem anchorsLoop_keys (rm : List (String × String)) (P : Int → Prop) :
    ∀ (l : List AnchorElem) (acc m : List (Int × String)),
      anchorsLoop rm acc l = .ok m →
      (∀ kv ∈ acc, P kv.1) →
      (∀ a ∈ l, ∀ k v, anchorEval rm a = .ok (some (k, v)) → P k) →
      ∀ kv ∈ m, P kv.1 := by
  intro l
  induction l with
  | nil =>
    intro acc m h hacc _
    simp only [anchorsLoop, Except.ok.injEq] at h
    subst h
    exact hacc
  | cons a rest ih =>
    intro acc m h hacc hl
    simp only [anchorsLoop] at h
    cases hae : anchorEval rm a with
    | error e =>
      rw [hae] at h
      cases h
    | ok o =>
      rw [hae] at h
      cases o with
      | none => exact ih acc m h hacc (fun b hb => hl b (List.mem_cons_of_mem _ hb))
      | some kv =>
        obtain ⟨k2, v2⟩ := kv
        have hk2 : P k2 := hl a (List.mem_cons_self _ _) k2 v2 hae
        refine ih _ m h ?_ (fun b hb => hl b (List.mem_cons_of_mem _ hb))
        intro kv2 hkv2
        rcases mem_dictInsert _ _ _ _ hkv2 with h2 | h2
        · rw [h2]
          exact hk2
        · exact hacc kv2 h2

/-- A successful anchor contribution determines its key: one more than the
integer parsed from the text of the `xdr:row` element of its `xdr:from`
child. -/
theorem anchorEval_key (rm : List (String × String)) (a : AnchorElem) (k : Int) (v : String)
    (h : anchorEval rm a = .ok (some (k, v))) :
    ∃ fc s i, a.fromCell = some fc ∧ fc.rowElem = some (some s) ∧ pyInt s = some i ∧ k = i + 1 := by
  rcases a with ⟨fc, pc⟩
  cases fc with
  | none => simp [anchorEval] at h
  | some fcv =>
    cases pc with
    | none => simp [anchorEval] at h
    | some pv =>
      cases hr : fcv.rowElem with
      | none => simp [anchorEval, hr] at h
      | some rt =>
        cases rt with
        | none => simp [anchorEval, hr] at h
        | some s =>
          cases hi : pyInt s with
          | none => simp [anchorEval, hr, hi] at h
          | some i =>
            refine ⟨fcv, s, i, rfl, hr, hi, ?_⟩
            cases hb : pv.blip with
            | none => simp [anchorEval, hr, hi, hb] at h
            | some b =>
              cases he : b.embed with
              | none => simp [anchorEval, hr, hi, hb, he] at h
              | some eid =>
                cases hg : dictGet rm eid with
                | none => simp [anchorEval, hr, hi, hb, he, hg] at h
                | some ip =>
                  by_cases hip : ip = ""
                  · simp [anchorEval, hr, hi, hb, he, hg, hip] at h
                  · simp [anchorEval, hr, hi, hb, he, hg, hip] at h
                    exact h.1.symm

/-- A dict whose keys are all at least one has no entry at key zero. -/
theorem dictGet_zero_none (m : List (Int × String)) (h : ∀ kv ∈ m, 1 ≤ kv.1) :
    dictGet m 0 = none := by
  induction m with
  | nil => rfl
  | cons kv rest ih =>
    obtain ⟨k, v⟩ := kv
    have hk : 1 ≤ k := h (k, v) (List.mem_cons_self _ _)
    have hk0 : ¬ k = 0 := by omega
    simp only [dictGet, if_neg hk0]
    exact ih (fun kv2 hkv2 => h kv2 (List.mem_cons_of_mem _ hkv2))

/-- A shared-string-typed cell whose parsed index has no Python-valid
position in the table makes its cell step fail. -/
theorem readCellStep_error (ss : List String) (acc : List (String × String)) (c : CellElem)
    (vt : Option String) (i : Int)
    (hv : c.v = some vt) (hcol : ¬ colLetters (c.coord.getD "") = "")
    (ht : c.ctype = some "s") (hi : pyInt (vt.getD "") = some i)
    (hout : pyIndex ss i = none) :
    readCellStep ss acc c = .error "IndexError" := by
  simp [readCellStep, hv, hcol, ht, hi, hout]

/-- A failing cell in a row makes the whole cell loop of that row fail. -/
theorem readCells_error (ss : List String) (c : CellElem) (vt : Option String) (i : Int)
    (hv : c.v = some vt) (hcol : ¬ colLetters (c.coord.getD "") = "")
    (ht : c.ctype = some "s") (hi : pyInt (vt.getD "") = some i)
    (hout : pyIndex ss i = none) :
    ∀ (cs : List CellElem) (acc : List (String × String)), c ∈ cs →
      ∃ e, readCells ss acc cs = .error e := by
  intro cs
  induction cs with
  | nil =>
    intro acc h
    cases h
  | cons d rest ih =>
    intro acc hmem
    rcases List.mem_cons.mp hmem with h | h
    · subst h
      exact ⟨"IndexError", by simp [readCells, readCellStep_error ss acc c vt i hv hcol ht hi hout]⟩
    · cases hd : readCellStep ss acc d with
      | error e => exact ⟨e, by simp [readCells, hd]⟩
      | ok acc2 =>
        obtain ⟨e, he⟩ := ih acc2 h
        exact ⟨e, by simp [readCells, hd, he]⟩

/-- A failing cell in a row makes the whole row fail. -/
theorem readRow_error (ss : List String) (row : RowElem) (c : CellElem) (vt : Option String)
    (i : Int) (hc : c ∈ row.cells)
    (hv : c.v = some vt) (hcol : ¬ colLetters (c.coord.getD "") = "")
    (ht : c.ctype = some "s") (hi : pyInt (vt.getD "") = some i)
    (hout : pyIndex ss i = none) :
    ∃ e, readRow ss row = .error e := by
  unfold readRow
  cases hri : pyInt (row.rAttr.getD "0") with
  | none => exact ⟨"ValueError", rfl⟩
  | some ri =>
    obtain ⟨e, he⟩ := readCells_error ss c vt i hv hcol ht hi hout row.cells [] hc
    exact ⟨e, by rw [he]⟩

/-- Relationships whose type does not end in the drawing marker are
skipped by the drawing scan. -/
theorem firstDrawing_skip (sp : String) :
    ∀ (pre l : List Rel), (∀ q ∈ pre, ¬ listTrails "/drawing".data q.relType.data = true) →
      firstDrawing sp (pre ++ l) = firstDrawing sp l := by
  intro pre
  induction pre with
  | nil => intro l _; rfl
  | cons q rest ih =>
    intro l hpre
    have hq := hpre q (List.mem_cons_self _ _)
    simp only [List.cons_append, firstDrawing, if_neg hq]
    exact ih l (fun b hb => hpre b (List.mem_cons_of_mem _ hb))

/-- The sheet loop is a filter-map over the declared sheets. -/
theorem sheetsLoop_eq_filterMap (rel_map : List (String × String)) :
    ∀ (sheets : List SheetElem),
      sheetsLoop rel_map sheets = sheets.filterMap (fun sh =>
        match sh.rid with
        | none => none
        | some rid =>
          match dictGet rel_map rid with
          | none => none
          | some t => if t = "" then none else some (sh.name.getD t, normpath (pjoin "xl" t))) := by
  intro sheets
  induction sheets with
  | nil => rfl
  | cons sh rest ih =>
    cases hrid : sh.rid with
    | none => simp [sheetsLoop, List.filterMap_cons, hrid, ih]
    | some rid =>
      cases hg : dictGet rel_map rid with
      | none => simp [sheetsLoop, List.filterMap_cons, hrid, hg, ih]
      | some t =>
        by_cases ht : t = ""
        · simp [sheetsLoop, List.filterMap_cons, hrid, hg, ht, ih]
        · simp [sheetsLoop, List.filterMap_cons, hrid, hg, ht, ih]

/-- A failing row in a sheet document makes the whole row read fail. -/
theorem read_sheet_rows_error (ss : List String) :
    ∀ (doc : List RowElem) (row : RowElem), row ∈ doc →
      (∃ e, readRow ss row = .error e) →
      ∃ e, read_sheet_rows doc ss = .error e := by
  intro doc
  induction doc with
  | nil =>
    intro row h _
    cases h
  | cons r rest ih =>
    intro row hmem hbad
    rcases List.mem_cons.mp hmem with h | h
    · subst h
      obtain ⟨e, he⟩ := hbad
      exact ⟨e, by simp [read_sheet_rows, he]⟩
    · cases h1 : readRow ss r with
      | error e => exact ⟨e, by simp [read_sheet_rows, h1]⟩
      | ok pr =>
        obtain ⟨e, he⟩ := ih row h hbad
        exact ⟨e, by simp [read_sheet_rows, h1, he]⟩

/-- Claim C1, counterexample: a sheet whose document holds exactly one row
(a header and nothing else) still emits a Position, with an empty
candidate list, contradicting the claim that such a sheet yields no
Position. -/
theorem headerOnly_sheet_emits_position :
    main_loop POSITION_NAME_OVERRIDES [] (fun _ => none) (fun _ => some [⟨some "1", []⟩])
        (fun _ => none) [("Pres", "xl/worksheets/sheet1.xml")] =
      .ok [{ title := "Pres", slug := "pres", sheet := "Pres", candidates := [] }] := rfl

/-- Claim C1, amended: a sheet emits a Position exactly when its parsed
row list is nonempty; the header row counts, so a header-only sheet emits
a Position with an empty candidate list, and only a sheet with no row
elements at all is dropped. -/
theorem position_emitted_iff_rows_nonempty
    (overrides : List (String × String)) (shared_strings : List String)
    (relsAt : String → Option (List Rel)) (sheetAt : String → Option (List RowElem))
    (drawingAt : String → Option (List AnchorElem))
    (sheet_name sheet_path : String) (doc : List RowElem)
    (rows : List (Int × List (String × String))) (op : Option Position)
    (hdoc : sheetAt sheet_path = some doc)
    (hrows : read_sheet_rows doc shared_strings = .ok rows)
    (hok : process_sheet overrides shared_strings relsAt sheetAt drawingAt sheet_name sheet_path = .ok op) :
    op.isSome ↔ ¬ rows = [] := by
  unfold process_sheet at hok
  cases him : sheet_image_map relsAt drawingAt (find_drawing_path relsAt sheet_path) with
  | error e =>
    rw [him] at hok
    cases hok
  | ok m =>
    simp only [him, hdoc, hrows] at hok
    cases rows with
    | nil =>
      simp only [Except.ok.injEq] at hok
      subst hok
      simp
    | cons r rest =>
      simp only [Except.ok.injEq] at hok
      subst hok
      simp

/-- Witness for the amended C1 at a concrete header-only sheet. -/
theorem position_emitted_iff_rows_nonempty_wit :
    (some ({ title := "Pres", slug := "pres", sheet := "Pres", candidates := [] } : Position)).isSome ↔
      ¬ ([((1 : Int), ([] : List (String × String)))] = []) :=
  position_emitted_iff_rows_nonempty POSITION_NAME_OVERRIDES [] (fun _ => none)
    (fun _ => some [⟨some "1", []⟩]) (fun _ => none) "Pres" "xl/worksheets/sheet1.xml"
    [⟨some "1", []⟩] [(1, [])]
    (some { title := "Pres", slug := "pres", sheet := "Pres", candidates := [] }) rfl rfl rfl

/-- Claim C2, counterexample: building the anchor map for a drawing whose
sidecar relationship file is absent from the archive raises (models the
uncheckd `zip_file.read` raising `KeyError`), contradicting the claim that
it is treated as no relationships. -/
theorem anchor_map_missing_rels_raises :
    map_anchor_rows_to_images (fun _ => none) (fun _ => some []) "xl/drawings/drawing1.xml" =
      .error "KeyError" := rfl

/-- Claim C2, amended: the two relationship-file consumers differ when the
file is absent: the drawing locator checks the namelist and treats an
absent sheet relationship file as no drawing, while the anchor mapper
reads the drawing relationship file unconditionally and fails when it is
absent. -/
theorem missing_rels_drawing_none_anchor_map_error
    (relsAt : String → Option (List Rel)) (drawingAt : String → Option (List AnchorElem))
    (sheet_path drawing_path : String)
    (h1 : relsAt (relsPathFor sheet_path) = none)
    (h2 : relsAt (relsPathFor drawing_path) = none) :
    find_drawing_path relsAt sheet_path = none ∧
      map_anchor_rows_to_images relsAt drawingAt drawing_path = .error "KeyError" := by
  constructor
  · unfold find_drawing_path
    rw [h1]
  · unfold map_anchor_rows_to_images
    rw [h2]

/-- Witness for the amended C2 at a concrete archive with no relationship
files. -/
theorem missing_rels_drawing_none_anchor_map_error_wit :
    find_drawing_path (fun _ => none) "xl/worksheets/sheet1.xml" = none ∧
      map_anchor_rows_to_images (fun _ => none) (fun _ => some [])
        "xl/drawings/drawing1.xml" = .error "KeyError" :=
  missing_rels_drawing_none_anchor_map_error (fun _ => none) (fun _ => some [])
    "xl/worksheets/sheet1.xml" "xl/drawings/drawing1.xml" rfl rfl

/-- Claim C3, counterexample: the candidate built from a name cell with
surrounding whitespace and a statement cell with a tab does not carry the
cell text character for character: the name is stripped and the statement
has its tab flattened. -/
theorem candidate_text_is_normalized :
    build_candidates [] [(2, [("A", " Alice "), ("C", "x\ty")])] =
      [{ name := "Alice", statement := "x y", headshot := none }] ∧
      ¬ (" Alice " = "Alice") ∧ ¬ ("x\ty" = "x y") :=
  ⟨rfl, by decide, by decide⟩

/-- Claim C3, amended: the candidate carries the stripped name-cell text
and the tab-flattened stripped statement-cell text; for cell text already
in that normal form (no surrounding whitespace, no tabs) the round trip is
exact, character for character. -/
theorem candidate_roundtrip_normalized (m : List (Int × String)) (i : Int)
    (cells : List (String × String)) (nm st : String)
    (hA : dictGet cells "A" = some nm) (hC : dictGet cells "C" = some st)
    (hnm1 : pyStrip nm = nm) (hnm2 : ¬ nm = "")
    (hst1 : pyStrip st = st) (hst2 : ∀ c ∈ st.data, ¬ c = '\t') :
    (build_candidates m [(i, cells)]).map (fun c => (c.name, c.statement)) = [(nm, st)] := by
  simp [build_candidates, hA, hC, hnm1, hnm2, hst1, tabToSpace_eq_self hst2]

/-- Witness for the amended C3 at a concrete normalized row. -/
theorem candidate_roundtrip_normalized_wit :
    (build_candidates [] [((2 : Int), [("A", "Alice"), ("C", "hi there")])]).map
        (fun c => (c.name, c.statement)) = [("Alice", "hi there")] :=
  candidate_roundtrip_normalized [] 2 [("A", "Alice"), ("C", "hi there")] "Alice" "hi there"
    rfl rfl (by decide) (by decide) (by decide) (by decide)

/-- Claim C4, counterexample: a stored shared-string index of minus one is
out of range for the table yet is not fatal: Python list indexing accepts
it and silently substitutes the last table entry. -/
theorem negative_shared_index_not_fatal :
    read_sheet_rows [⟨some "1", [⟨some "A1", some "s", some (some "-1")⟩]⟩] ["a", "b"] =
      .ok [(1, [("A", "b")])] := rfl

/-- Claim C4, amended: a shared-string-typed cell whose parsed index has
no Python-valid position in the table (at least the table length, or
below minus the table length) is fatal for the whole row read; with an
empty table this holds of every index, so every shared-string reference is
fatal there; a negative index within minus the table length silently
substitutes a string from the end instead. -/
theorem shared_index_out_of_range_fatal (shared_strings : List String) (doc : List RowElem)
    (row : RowElem) (c : CellElem) (vt : Option String) (i : Int)
    (hrow : row ∈ doc) (hc : c ∈ row.cells)
    (hv : c.v = some vt) (hcol : ¬ colLetters (c.coord.getD "") = "")
    (ht : c.ctype = some "s") (hi : pyInt (vt.getD "") = some i)
    (hout : pyIndex shared_strings i = none) :
    ∃ e, read_sheet_rows doc shared_strings = .error e :=
  read_sheet_rows_error shared_strings doc row hrow
    (readRow_error shared_strings row c vt i hc hv hcol ht hi hout)

/-- Witness for the amended C4: with an empty shared-string table, a
shared-string cell reference is fatal. -/
theorem shared_index_out_of_range_fatal_wit :
    ∃ e, read_sheet_rows [⟨some "1", [⟨some "A1", some "s", some (some "0")⟩]⟩] [] = .error e :=
  shared_index_out_of_range_fatal [] [⟨some "1", [⟨some "A1", some "s", some (some "0")⟩]⟩]
    ⟨some "1", [⟨some "A1", some "s", some (some "0")⟩]⟩
    ⟨some "A1", some "s", some (some "0")⟩ (some "0") 0
    (List.mem_cons_self _ _) (List.mem_cons_self _ _) rfl (by decide) rfl (by decide) rfl

/-- Claim C5, confirmed: an anchor that declares a from-cell position with
row text parsing to `n` and holds a picture whose embed reference resolves
in the drawing relationship map is recorded in the anchor map under key
`n + 1`, and the candidate built from the row with one-based index `n + 1`
picks that image up; so an anchor declared at zero-based row 2 attaches to
the candidate built from one-based grid row 3. -/
theorem anchor_row_plus_one_attaches
    (relsAt : String → Option (List Rel)) (drawingAt : String → Option (List AnchorElem))
    (drawing_path : String) (relsDoc : List Rel) (s : String) (n : Int) (eid p : String)
    (a : AnchorElem) (cells : List (String × String))
    (hrels : relsAt (relsPathFor drawing_path) = some relsDoc)
    (hdraw : drawingAt drawing_path = some [a])
    (ha : a = ⟨some ⟨some (some s)⟩, some ⟨some ⟨some eid⟩⟩⟩)
    (hn : pyInt s = some n)
    (hp : dictGet (drawingRelMap drawing_path relsDoc) eid = some p)
    (hname : ¬ pyStrip ((dictGet cells "A").getD "") = "") :
    map_anchor_rows_to_images relsAt drawingAt drawing_path = .ok [(n + 1, p)] ∧
      (build_candidates [(n + 1, p)] [(n + 1, cells)]).map Candidate.headshot =
        [some (normpath p)] := by
  have hpne : ¬ p = "" := by
    have hp2 := hp
    unfold drawingRelMap at hp2
    have hmem := mem_pyDict _ _ (dictGet_mem _ _ _ hp2)
    rw [List.mem_map] at hmem
    obtain ⟨r, _, hr⟩ := hmem
    have hsnd : p = normpath (pjoin (dirname drawing_path) r.target) := by
      have := congrArg Prod.snd hr
      simpa using this.symm
    rw [hsnd]
    exact normpath_ne_empty _
  constructor
  · unfold map_anchor_rows_to_images
    rw [hrels, hdraw]
    subst ha
    simp [anchorsLoop, anchorEval, hn, hp, hpne, dictInsert]
  · simp [build_candidates, hname, dictGet, hpne]

/-- Witness for C5 at the concrete row of the claim: zero-based row 2,
one-based row 3. -/
theorem anchor_row_plus_one_attaches_wit :
    map_anchor_rows_to_images
        (fun _ => some [⟨"rId1", "t", "../media/image1.png"⟩])
        (fun _ => some [⟨some ⟨some (some "2")⟩, some ⟨some ⟨some "rId1"⟩⟩⟩])
        "xl/drawings/drawing1.xml" = .ok [((2 : Int) + 1, "xl/media/image1.png")] ∧
      (build_candidates [((2 : Int) + 1, "xl/media/image1.png")]
          [((2 : Int) + 1, [("A", "Alice")])]).map Candidate.headshot =
        [some (normpath "xl/media/image1.png")] :=
  anchor_row_plus_one_attaches
    (fun _ => some [⟨"rId1", "t", "../media/image1.png"⟩])
    (fun _ => some [⟨some ⟨some (some "2")⟩, some ⟨some ⟨some "rId1"⟩⟩⟩])
    "xl/drawings/drawing1.xml" [⟨"rId1", "t", "../media/image1.png"⟩] "2" 2 "rId1"
    "xl/media/image1.png" ⟨some ⟨some (some "2")⟩, some ⟨some ⟨some "rId1"⟩⟩⟩
    [("A", "Alice")] rfl rfl rfl (by decide) rfl (by decide)

/-- Claim C6, confirmed: no candidate with an empty name is ever built; a
data row whose name-column value strips to empty yields no candidate, and
a data row with a non-blank name and a blank (or absent) statement cell
yields a candidate whose statement is the empty string. -/
theorem blank_name_filtering :
    (∀ (m : List (Int × String)) (rows : List (Int × List (String × String))) (c : Candidate),
        c ∈ build_candidates m rows → ¬ c.name = "") ∧
    (∀ (m : List (Int × String)) (i : Int) (cells : List (String × String)),
        pyStrip ((dictGet cells "A").getD "") = "" → build_candidates m [(i, cells)] = []) ∧
    (∀ (m : List (Int × String)) (i : Int) (cells : List (String × String)),
        ¬ pyStrip ((dictGet cells "A").getD "") = "" →
        pyStrip (tabToSpace ((dictGet cells "C").getD "")) = "" →
        (build_candidates m [(i, cells)]).map (fun c => (c.name, c.statement)) =
          [(pyStrip ((dictGet cells "A").getD ""), "")]) := by
  refine ⟨?_, ?_, ?_⟩
  · intro m rows
    induction rows with
    | nil =>
      intro c hc
      simp [build_candidates] at hc
    | cons rc rest ih =>
      obtain ⟨ri, cells⟩ := rc
      intro c hc
      by_cases hn : pyStrip ((dictGet cells "A").getD "") = ""
      · simp only [build_candidates, if_pos hn] at hc
        exact ih c hc
      · simp only [build_candidates, if_neg hn] at hc
        rcases List.mem_cons.mp hc with h | h
        · rw [h]
          simpa using hn
        · exact ih c h
  · intro m i cells h
    simp [build_candidates, h]
  · intro m i cells h1 h2
    simp [build_candidates, h1, h2]

/-- Witness for C6: a whitespace-only name row yields nothing, a row with
name and blank statement yields one candidate with empty statement and
non-empty name. -/
theorem blank_name_filtering_wit :
    build_candidates [] [((2 : Int), [("A", " \t ")])] = [] ∧
      (build_candidates [] [((3 : Int), [("A", "Bob"), ("C", "  ")])]).map
        (fun c => (c.name, c.statement)) =
        [(pyStrip ((dictGet [("A", "Bob"), ("C", "  ")] "A").getD ""), "")] ∧
      ¬ ({ name := "Bob", statement := "", headshot := none } : Candidate).name = "" :=
  ⟨blank_name_filtering.2.1 [] 2 [("A", " \t ")] (by decide),
   blank_name_filtering.2.2 [] 3 [("A", "Bob"), ("C", "  ")] (by decide) (by decide),
   blank_name_filtering.1 [] [((3 : Int), [("A", "Bob"), ("C", "  ")])]
     { name := "Bob", statement := "", headshot := none } (by decide)⟩

/-- Claim C7, confirmed: when several qualifying anchors target the same
one-based row key, the finished anchor map holds the image of the last
qualifying anchor for that key in document order. -/
theorem duplicate_anchor_last_wins
    (relsAt : String → Option (List Rel)) (drawingAt : String → Option (List AnchorElem))
    (drawing_path : String) (relsDoc : List Rel) (pre post : List AnchorElem) (a : AnchorElem)
    (m : List (Int × String)) (k : Int) (p : String)
    (hrels : relsAt (relsPathFor drawing_path) = some relsDoc)
    (hdraw : drawingAt drawing_path = some (pre ++ a :: post))
    (hok : map_anchor_rows_to_images relsAt drawingAt drawing_path = .ok m)
    (ha : anchorEval (drawingRelMap drawing_path relsDoc) a = .ok (some (k, p)))
    (hpost : ∀ b ∈ post, ∀ v,
        ¬ anchorEval (drawingRelMap drawing_path relsDoc) b = .ok (some (k, v))) :
    dictGet m k = some p := by
  unfold map_anchor_rows_to_images at hok
  simp only [hrels, hdraw] at hok
  rw [anchorsLoop_append (drawingRelMap drawing_path relsDoc) pre (a :: post)] at hok
  cases h1 : anchorsLoop (drawingRelMap drawing_path relsDoc) [] pre with
  | error e =>
    rw [h1] at hok
    cases hok
  | ok acc1 =>
    simp only [h1] at hok
    simp only [anchorsLoop, ha] at hok
    rw [anchorsLoop_get_stable (drawingRelMap drawing_path relsDoc) k post
      (dictInsert acc1 k p) m hok hpost]
    exact dictGet_dictInsert_self acc1 k p

/-- Witness for C7: two anchors target row key one; the map holds the
second image. -/
theorem duplicate_anchor_last_wins_wit :
    dictGet [((1 : Int), "xl/media/image2.png")] 1 = some "xl/media/image2.png" :=
  duplicate_anchor_last_wins
    (fun _ => some [⟨"rId1", "t", "../media/image1.png"⟩, ⟨"rId2", "t", "../media/image2.png"⟩])
    (fun _ => some [⟨some ⟨some (some "0")⟩, some ⟨some ⟨some "rId1"⟩⟩⟩,
                    ⟨some ⟨some (some "0")⟩, some ⟨some ⟨some "rId2"⟩⟩⟩])
    "xl/drawings/drawing1.xml"
    [⟨"rId1", "t", "../media/image1.png"⟩, ⟨"rId2", "t", "../media/image2.png"⟩]
    [⟨some ⟨some (some "0")⟩, some ⟨some ⟨some "rId1"⟩⟩⟩] []
    ⟨some ⟨some (some "0")⟩, some ⟨some ⟨some "rId2"⟩⟩⟩
    [(1, "xl/media/image2.png")] 1 "xl/media/image2.png"
    rfl rfl rfl rfl (by intro b hb; cases hb)

/-- Claim C8, counterexample: a sheet whose relationship id resolves in
the workbook relationship map, but to an empty target, is omitted (the
empty string is falsy), so output membership is not equivalent to the id
resolving in the map; under the claim the sheet would have been kept with
path `xl`. -/
theorem empty_target_sheet_skipped :
    load_sheet_targets [⟨some "S", some "rId1"⟩] [⟨"rId1", "ty", ""⟩] = [] ∧
      dictGet (pyDict (([⟨"rId1", "ty", ""⟩] : List Rel).map (fun r => (r.relId, r.target))))
        "rId1" = some "" ∧
      normpath (pjoin "xl" "") = "xl" :=
  ⟨rfl, rfl, rfl⟩

/-- Claim C8, amended: the sheet target loader returns exactly the
declared sheets whose relationship id resolves in the workbook
relationship map to a non-empty target, in the declared order, each paired
with its normalized document path; a sheet with a missing or unresolvable
id, or an empty resolved target, is silently omitted (the loader cannot
fail). -/
theorem sheet_targets_exactly_resolved (sheets : List SheetElem) (workbookRels : List Rel) :
    load_sheet_targets sheets workbookRels =
      sheets.filterMap (fun sh =>
        match sh.rid with
        | none => none
        | some rid =>
          match dictGet (pyDict (workbookRels.map (fun r => (r.relId, r.target)))) rid with
          | none => none
          | some t => if t = "" then none else some (sh.name.getD t, normpath (pjoin "xl" t))) := by
  unfold load_sheet_targets
  exact sheetsLoop_eq_filterMap _ sheets

/-- Claim C9, counterexample: a row element lacking the index attribute is
read with row index 0, and a drawing anchor declaring zero-based row minus
one produces anchor-map key 0, so the candidate built from that row does
receive a headshot, contradicting the claim that it never can. -/
theorem missing_row_attr_headshot_via_negative_anchor :
    read_sheet_rows [⟨none, [⟨some "A1", none, some (some "Bob")⟩]⟩] [] =
        .ok [(0, [("A", "Bob")])] ∧
      map_anchor_rows_to_images
          (fun _ => some [⟨"rId1", "t", "../media/image1.png"⟩])
          (fun _ => some [⟨some ⟨some (some "-1")⟩, some ⟨some ⟨some "rId1"⟩⟩⟩])
          "xl/drawings/drawing1.xml" = .ok [(0, "xl/media/image1.png")] ∧
      build_candidates [(0, "xl/media/image1.png")] [(0, [("A", "Bob")])] =
        [{ name := "Bob", statement := "", headshot := some "xl/media/image1.png" }] ∧
      ¬ (some "xl/media/image1.png" = (none : Option String)) :=
  ⟨rfl, rfl, rfl, by decide⟩

/-- Claim C9, amended: a row element lacking the index attribute is
assigned row index 0; a candidate built from a row of index 0 receives no
headshot whenever every anchor-map key is at least one, and the keys are
all at least one whenever every anchor of the drawing declares a
non-negative zero-based row (a negative declared row is the one way to
produce key 0). -/
theorem row_zero_headshot_conditions :
    (∀ (shared_strings : List String) (cs : List CellElem)
        (rows : List (Int × List (String × String))),
        read_sheet_rows [⟨none, cs⟩] shared_strings = .ok rows → rows.map Prod.fst = [0]) ∧
    (∀ (m : List (Int × String)), (∀ kv ∈ m, 1 ≤ kv.1) →
        ∀ (cells : List (String × String)) (c : Candidate),
          c ∈ build_candidates m [(0, cells)] → c.headshot = none) ∧
    (∀ (relsAt : String → Option (List Rel)) (drawingAt : String → Option (List AnchorElem))
        (drawing_path : String) (relsDoc : List Rel) (drawing : List AnchorElem)
        (m : List (Int × String)),
        relsAt (relsPathFor drawing_path) = some relsDoc →
        drawingAt drawing_path = some drawing →
        map_anchor_rows_to_images relsAt drawingAt drawing_path = .ok m →
        (∀ a ∈ drawing, ∀ (fc : FromCell) (s : String) (i : Int),
          a.fromCell = some fc → fc.rowElem = some (some s) → pyInt s = some i → 0 ≤ i) →
        ∀ kv ∈ m, 1 ≤ kv.1) := by
  refine ⟨?_, ?_, ?_⟩
  · intro ss cs rows h
    have h0 : pyInt "0" = some 0 := by decide
    cases hrc : readCells ss [] cs with
    | error e =>
      have h1 : read_sheet_rows [⟨none, cs⟩] ss = .error e := by
        simp [read_sheet_rows, readRow, h0, hrc]
      rw [h1] at h
      cases h
    | ok cells2 =>
      have h1 : read_sheet_rows [⟨none, cs⟩] ss = .ok [(0, cells2)] := by
        simp [read_sheet_rows, readRow, h0, hrc]
      rw [h1] at h
      simp only [Except.ok.injEq] at h
      subst h
      rfl
  · intro m hm cells c hc
    have hget : dictGet m 0 = none := dictGet_zero_none m hm
    by_cases hn : pyStrip ((dictGet cells "A").getD "") = ""
    · simp only [build_candidates, if_pos hn] at hc
      cases hc
    · simp only [build_candidates, if_neg hn, hget] at hc
      rcases List.mem_cons.mp hc with h | h
      · rw [h]
      · cases h
  · intro relsAt drawingAt drawing_path relsDoc drawing m hrels hdraw hok hrows
    unfold map_anchor_rows_to_images at hok
    simp only [hrels, hdraw] at hok
    refine anchorsLoop_keys (drawingRelMap drawing_path relsDoc) (fun k => 1 ≤ k)
      drawing [] m hok (by intro kv hkv; cases hkv) ?_
    intro a ha k v hae
    obtain ⟨fc, s, i, h1, h2, h3, h4⟩ :=
      anchorEval_key (drawingRelMap drawing_path relsDoc) a k v hae
    have hi : 0 ≤ i := hrows a ha fc s i h1 h2 h3
    omega

/-- Witness for the amended C9 at concrete inputs: an attribute-free row
reads as index 0, and with anchor-map keys at least one the candidate from
row 0 has no headshot. -/
theorem row_zero_headshot_conditions_wit :
    ([((0 : Int), ([("A", "Bob")] : List (String × String)))].map Prod.fst = [(0 : Int)]) ∧
      (∀ c ∈ build_candidates [((1 : Int), "x")] [((0 : Int), [("A", "Bob")])],
        c.headshot = none) ∧
      (∀ kv ∈ ([] : List (Int × String)), 1 ≤ kv.1) :=
  ⟨row_zero_headshot_conditions.1 [] [⟨some "A1", none, some (some "Bob")⟩]
      [(0, [("A", "Bob")])] rfl,
   fun c hc => row_zero_headshot_conditions.2.1 [((1 : Int), "x")] (by decide)
      [("A", "Bob")] c hc,
   row_zero_headshot_conditions.2.2 (fun _ => some []) (fun _ => some [])
      "xl/drawings/drawing1.xml" [] [] [] rfl rfl rfl
      (fun a ha => absurd ha (List.not_mem_nil a))⟩

/-- Claim C10, confirmed: when the sheet relationship file declares
several relationships whose type ends in the drawing marker, the drawing
locator returns the normalized target of the first one in document order
and ignores the rest. -/
theorem first_drawing_relationship_wins
    (relsAt : String → Option (List Rel)) (sheet_path : String)
    (pre post : List Rel) (r : Rel)
    (h : relsAt (relsPathFor sheet_path) = some (pre ++ r :: post))
    (hpre : ∀ q ∈ pre, ¬ listTrails "/drawing".data q.relType.data = true)
    (hr : listTrails "/drawing".data r.relType.data = true) :
    find_drawing_path relsAt sheet_path =
      some (normpath (pjoin (dirname sheet_path) r.target)) := by
  unfold find_drawing_path
  simp only [h]
  rw [firstDrawing_skip sheet_path pre (r :: post) hpre]
  simp only [firstDrawing, if_pos hr]

/-- Witness for C10: two drawing relationships are declared after a
non-drawing one; the first drawing target is returned, the second
ignored. -/
theorem first_drawing_relationship_wins_wit :
    find_drawing_path
        (fun _ => some [⟨"rId0", "http://x/comments", "../comment1.xml"⟩,
                        ⟨"rId1", "http://x/drawing", "../drawings/drawing1.xml"⟩,
                        ⟨"rId2", "http://x/drawing", "../drawings/drawing2.xml"⟩])
        "xl/worksheets/sheet1.xml" =
      some (normpath (pjoin (dirname "xl/worksheets/sheet1.xml") "../drawings/drawing1.xml")) :=
  first_drawing_relationship_wins
    (fun _ => some [⟨"rId0", "http://x/comments", "../comment1.xml"⟩,
                    ⟨"rId1", "http://x/drawing", "../drawings/drawing1.xml"⟩,
                    ⟨"rId2", "http://x/drawing", "../drawings/drawing2.xml"⟩])
    "xl/worksheets/sheet1.xml"
    [⟨"rId0", "http://x/comments", "../comment1.xml"⟩]
    [⟨"rId2", "http://x/drawing", "../drawings/drawing2.xml"⟩]
    ⟨"rId1", "http://x/drawing", "../drawings/drawing1.xml"⟩
    rfl (by decide) (by decide)

end ExtractCandidates
